import Mathlib

/-!
Shallow embedding of the replay-buffer module of the slippify repository
(src/data/replay_buffer.py), together with theorems checking the
specification claims about it.

Modelling conventions:
  * Python numeric scalars are modelled exactly as integers (`Val`); the
    numpy dtype of a created vector is tracked by a `DType` tag, so the
    `np.float32` cast appears as the `DType.float32` tag on the vector.
  * A pickled session record (a Python dict of per-frame sequences) is an
    association list from field name to list of scalars; a dict access that
    would raise `KeyError`, and a sequence index that would raise
    `IndexError`, are modelled as `Option.none`.
  * Decoded images and transformed tensors are abstract values (`Image`,
    `Tensor`, both `Nat`); a torchvision transform pipeline is an abstract
    function `Image → Tensor`.  The file system holding the frame images is
    a map `ImageFS` from (session id, frame index) to an optional image;
    the deterministic path resolution frame_dir/<id>/frame_NNNN.jpg is
    modelled by keying this map on the pair.
  * `ThreadPoolExecutor.map` returns its results in the order of the input
    iterable (and the worker closure only reads shared state), so the
    concurrent fan-out is modelled as an in-order `List.mapM`; the first
    worker exception aborts, as consuming the iterator does in Python.
  * Functions that can raise return `Option`: `none` is an uncaught Python
    exception.  The early `return` taken when the capacity ceiling is
    reached is a normal return and is modelled as a successful result that
    skips the image stage, exactly as the code does.
  * The dynamic Python type of the `observations` / `next_observations`
    attributes (list of numpy vectors, numpy 2-d array, torch tensor) is
    tracked by a `Container` tag, so the one-time bulk conversion performed
    by `add_directory` is observable in the model.
-/

/-- Numeric scalar values (Python floats, modelled exactly). -/
abbrev Val := Int

/-- The numpy dtype of a created vector; `_create_observation` and
`_create_action` build arrays with `dtype=np.float32`. -/
inductive DType where
  | float32
  | float64
deriving DecidableEq, Repr

/-- A fixed-width numeric vector together with its dtype tag. -/
structure NpVec where
  dtype : DType
  data : List Val
deriving DecidableEq, Repr

/-- Abstract decoded image content. -/
abbrev Image := Nat

/-- Abstract transformed frame tensor. -/
abbrev Tensor := Nat

/-- A torchvision transform pipeline, abstracted to a pure function. -/
abbrev Pipeline := Image → Tensor

/-- A deserialized session record: field name to per-frame scalar sequence. -/
abbrev Record := List (String × List Val)

/-- The frame-image file system: session id and frame index to optional
decoded image (`none` is a missing or unreadable file). -/
abbrev ImageFS := String → Nat → Option Image

/-- Dynamic Python container type of a buffer attribute. -/
inductive Container where
  | pylist
  | nparray
  | torch
deriving DecidableEq, Repr

/-- The container type of one element extracted from a sequence: elements
stored in the python lists are numpy vectors, a row of a numpy 2-d array is
a numpy vector, a row of a torch tensor is a torch tensor. -/
def elemKind : Container → Container
  | Container.pylist => Container.nparray
  | Container.nparray => Container.nparray
  | Container.torch => Container.torch

/-- The ReplayBuffer object state: the four parallel example sequences, the
provenance sequences, the running count, and the configuration carried on
the object (`max_size`, the active `transforms`).  The two container tags
record the dynamic type of `observations` / `next_observations`. -/
structure Buffer where
  observations : List NpVec
  actions : List NpVec
  next_observations : List NpVec
  offsets : List Nat
  file_ids : List String
  frame_idx : List Nat
  current_size : Nat
  frames : List Tensor
  max_size : Nat
  transforms : List Pipeline
  obs_container : Container
  next_obs_container : Container

/-- ReplayBuffer.reset: rebind every sequence to a fresh empty python list
and zero the running count. -/
def Buffer.reset (b : Buffer) : Buffer :=
  { b with
    observations := []
    actions := []
    next_observations := []
    offsets := []
    file_ids := []
    frame_idx := []
    current_size := 0
    frames := []
    obs_container := Container.pylist
    next_obs_container := Container.pylist }

/-- Dict access followed by sequence indexing: data[f][i]. -/
def getField (data : Record) (f : String) (i : Nat) : Option Val :=
  (List.lookup f data).bind (fun l => l[i]?)

/-- ReplayBuffer._create_observation: the 10-element observation vector, in
canonical field order, built as a numpy float32 array. -/
def _create_observation (data : Record) (i : Nat) : Option NpVec := do
  let a1 ← getField data "p1_position_x" i
  let a2 ← getField data "p1_position_y" i
  let a3 ← getField data "p1_percent" i
  let a4 ← getField data "p1_facing" i
  let a5 ← getField data "p1_action" i
  let a6 ← getField data "p2_position_x" i
  let a7 ← getField data "p2_position_y" i
  let a8 ← getField data "p2_percent" i
  let a9 ← getField data "p2_facing" i
  let a10 ← getField data "p2_action" i
  pure ⟨DType.float32, [a1, a2, a3, a4, a5, a6, a7, a8, a9, a10]⟩

/-- ReplayBuffer._create_action: the 12-element player-1 control vector,
built as a numpy float32 array. -/
def _create_action (data : Record) (i : Nat) : Option NpVec := do
  let a1 ← getField data "p1_main_stick_x" i
  let a2 ← getField data "p1_main_stick_y" i
  let a3 ← getField data "p1_c_stick_x" i
  let a4 ← getField data "p1_c_stick_y" i
  let a5 ← getField data "p1_l_shoulder" i
  let a6 ← getField data "p1_r_shoulder" i
  let a7 ← getField data "p1_button_a" i
  let a8 ← getField data "p1_button_b" i
  let a9 ← getField data "p1_button_x" i
  let a10 ← getField data "p1_button_y" i
  let a11 ← getField data "p1_button_z" i
  let a12 ← getField data "p1_button_d_up" i
  pure ⟨DType.float32, [a1, a2, a3, a4, a5, a6, a7, a8, a9, a10, a11, a12]⟩

/-- ReplayBuffer.load_and_transform_frames: look up the session id stored at
flat index start + i, open that session's image for frame i, and apply every
configured transform to the same decoded image, in pipeline order. -/
def load_and_transform_frames (b : Buffer) (fs : ImageFS) (start i : Nat) :
    Option (List Tensor) :=
  match b.file_ids[start + i]? with
  | none => none
  | some fid =>
    match fs fid i with
    | none => none
    | some image => some (b.transforms.map (fun t => t image))

/-- The body of the inner loop over self.transforms in add_pkl_file: append
the numeric triple and its provenance once and bump the running count. -/
def appendOne (sid : String) (pl : Nat) (obs act nobs : NpVec) (i : Nat)
    (acc : Buffer) : Buffer :=
  { acc with
    observations := acc.observations ++ [obs]
    actions := acc.actions ++ [act]
    next_observations := acc.next_observations ++ [nobs]
    file_ids := acc.file_ids ++ [sid]
    offsets := acc.offsets ++ [pl]
    frame_idx := acc.frame_idx ++ [i]
    current_size := acc.current_size + 1 }

/-- The inner loop over self.transforms in add_pkl_file: append the numeric
triple and its provenance once per configured pipeline. -/
def numericExtend (b : Buffer) (sid : String) (pl : Nat)
    (obs act nobs : NpVec) (i : Nat) : Buffer :=
  b.transforms.foldl (fun acc _t => appendOne sid pl obs act nobs i acc) b

/-- The numeric for-loop of add_pkl_file over the frame indices: before each
frame the capacity ceiling is checked (an early normal return, flag false);
then the three vectors are created (an exception is `none`) and appended once
per pipeline.  Flag true means the loop ran to completion. -/
def numericPass (data : Record) (sid : String) (pl : Nat) :
    Buffer → List Nat → Option (Buffer × Bool)
  | b, [] => some (b, true)
  | b, i :: rest =>
    if b.max_size ≤ b.current_size then some (b, false)
    else
      match _create_observation data i, _create_action data i,
          _create_observation data (i + 1) with
      | some obs, some act, some nobs =>
        numericPass data sid pl (numericExtend b sid pl obs act nobs i) rest
      | _, _, _ => none

/-- functools.reduce(operator.add, l): left fold of list concatenation;
raises TypeError on an empty argument (modelled as `none`). -/
def reduceAdd : List (List Tensor) → Option (List Tensor)
  | [] => none
  | x :: xs => some (xs.foldl (fun a c => a ++ c) x)

/-- list(executor.map f it): the results of the worker tasks, collected in
the order of the input iterable regardless of completion order; consuming
the iterator re-raises the first worker exception (`none`). -/
def mapOpt {α β : Type} (f : α → Option β) : List α → Option (List β)
  | [] => some []
  | i :: rest =>
    match f i with
    | none => none
    | some r =>
      match mapOpt f rest with
      | none => none
      | some rs => some (r :: rs)

/-- The with-ThreadPoolExecutor block of add_pkl_file: map the frame loader
over the frame range (results collected in input order), flatten with
reduce, and extend the frame-tensor sequence with the result. -/
def imageStage (c : Buffer) (fs : ImageFS) (pl m : Nat) : Option Buffer :=
  (mapOpt (fun i => load_and_transform_frames c fs pl i)
      (List.range m)).bind
    (fun results => (reduceAdd results).bind
      (fun flat => some { c with frames := c.frames ++ flat }))

/-- ReplayBuffer.add_pkl_file: deserialize the record (given), read the
frame count from the "frame" field, run the numeric pass over all frames but
the last, and — only if the pass was not cut short by the capacity ceiling —
run the image stage over the same frame range. -/
def add_pkl_file (b : Buffer) (sid : String) (data : Record) (fs : ImageFS) :
    Option Buffer :=
  match List.lookup "frame" data with
  | none => none
  | some frameField =>
    let num_frames := frameField.length
    let prev_length := b.observations.length
    match numericPass data sid prev_length b (List.range (num_frames - 1)) with
    | none => none
    | some (b2, false) => some b2
    | some (b2, true) => imageStage b2 fs prev_length (num_frames - 1)

/-- The sequential for-loop of add_directory over the sorted session files:
each file is ingested in turn, an uncaught exception aborts the pass. -/
def ingestAll (fs : ImageFS) : Buffer → List (String × Record) → Option Buffer
  | b, [] => some b
  | b, f :: rest =>
    match add_pkl_file b f.1 f.2 fs with
    | none => none
    | some b2 => ingestAll fs b2 rest

/-- ReplayBuffer.add_directory: sort the session files lexicographically by
name, ingest them in order (an exception anywhere aborts the whole pass),
then perform the one-time bulk conversion: both observation sequences become
numpy arrays and `observations` is then wrapped as a torch tensor. -/
def add_directory (b : Buffer) (dir : List (String × Record)) (fs : ImageFS) :
    Option Buffer :=
  let files := dir.insertionSort (fun x y => x.1 ≤ y.1)
  match ingestAll fs b files with
  | none => none
  | some b2 =>
    let b3 := { b2 with
      obs_container := Container.nparray
      next_obs_container := Container.nparray }
    some { b3 with obs_container := Container.torch }

/-- Python sequence indexing: nonnegative indices below the length are used
directly, negative indices at least -length wrap around, anything else
raises IndexError. -/
def pyIndex (n : Nat) (idx : Int) : Option Nat :=
  if 0 ≤ idx then
    if idx < (n : Int) then some idx.toNat else none
  else
    if -(n : Int) ≤ idx then some (idx + (n : Int)).toNat else none

/-- Python indexing into a list-like sequence. -/
def pyGet {α : Type} (l : List α) (idx : Int) : Option α :=
  (pyIndex l.length idx).bind (fun j => l[j]?)

/-- ReplayBuffer.__getitem__: fetch the six per-index attributes with Python
indexing (the first out-of-range access raises) and return
((observation, action, next_observation), frame).  The observation and
next-observation components carry the container type of one element of the
sequence they were taken from. -/
def getitem (b : Buffer) (idx : Int) :
    Option (((Container × NpVec) × NpVec × (Container × NpVec)) × Tensor) := do
  let observation ← pyGet b.observations idx
  let action ← pyGet b.actions idx
  let next_observation ← pyGet b.next_observations idx
  let _file_id ← pyGet b.file_ids idx
  let _frame_i ← pyGet b.frame_idx idx
  let frame ← pyGet b.frames idx
  pure (((elemKind b.obs_container, observation), action,
         (elemKind b.next_obs_container, next_observation)), frame)

/-- ReplayBuffer.__len__. -/
def bufLen (b : Buffer) : Nat := b.observations.length

/-- The canonical observation field names, in layout order. -/
def obsFields : List String :=
  ["p1_position_x", "p1_position_y", "p1_percent", "p1_facing", "p1_action",
   "p2_position_x", "p2_position_y", "p2_percent", "p2_facing", "p2_action"]

/-- The canonical action field names, in layout order. -/
def actFields : List String :=
  ["p1_main_stick_x", "p1_main_stick_y", "p1_c_stick_x", "p1_c_stick_y",
   "p1_l_shoulder", "p1_r_shoulder", "p1_button_a", "p1_button_b",
   "p1_button_x", "p1_button_y", "p1_button_z", "p1_button_d_up"]

/-- One field is present with the expected sequence length. -/
def fieldLenB (data : Record) (f : String) (n : Nat) : Bool :=
  match List.lookup f data with
  | some l => l.length == n
  | none => false

/-- A record is well formed at length n: the "frame" field and every
canonical observation and action field is present with length n. -/
def wellFormedB (data : Record) (n : Nat) : Bool :=
  fieldLenB data "frame" n &&
    (obsFields ++ actFields).all (fun f => fieldLenB data f n)

/-- The six numeric sequences of the buffer have equal length. -/
def numAligned (b : Buffer) : Prop :=
  b.actions.length = b.observations.length ∧
  b.next_observations.length = b.observations.length ∧
  b.file_ids.length = b.observations.length ∧
  b.offsets.length = b.observations.length ∧
  b.frame_idx.length = b.observations.length

/-- All seven per-example sequences of the buffer have equal length. -/
def fullAligned (b : Buffer) : Prop :=
  numAligned b ∧ b.frames.length = b.observations.length

instance (b : Buffer) : Decidable (numAligned b) := by
  unfold numAligned; infer_instance

instance (b : Buffer) : Decidable (fullAligned b) := by
  unfold fullAligned; infer_instance

/-- The observation value on the success path (default used off it). -/
def obsD (data : Record) (i : Nat) : NpVec :=
  (_create_observation data i).getD ⟨DType.float32, []⟩

/-- The action value on the success path (default used off it). -/
def actD (data : Record) (i : Nat) : NpVec :=
  (_create_action data i).getD ⟨DType.float32, []⟩

/-- The decoded image on the success path (default used off it). -/
def imgD (fs : ImageFS) (sid : String) (i : Nat) : Image :=
  (fs sid i).getD 0

/-- The buffer state produced by a fully admitted, exception-free ingestion
of one session of n frames: per frame index below n - 1, one numeric example
per pipeline, in ascending frame order and pipeline order, and the matching
flattened image fan-out extended onto the frame-tensor sequence. -/
def ingestResult (b : Buffer) (sid : String) (data : Record) (fs : ImageFS)
    (n : Nat) : Buffer :=
  { b with
    observations := b.observations ++
      (List.range (n - 1)).flatMap
        (fun i => List.replicate b.transforms.length (obsD data i))
    actions := b.actions ++
      (List.range (n - 1)).flatMap
        (fun i => List.replicate b.transforms.length (actD data i))
    next_observations := b.next_observations ++
      (List.range (n - 1)).flatMap
        (fun i => List.replicate b.transforms.length (obsD data (i + 1)))
    file_ids := b.file_ids ++
      List.replicate ((n - 1) * b.transforms.length) sid
    offsets := b.offsets ++
      List.replicate ((n - 1) * b.transforms.length) b.observations.length
    frame_idx := b.frame_idx ++
      (List.range (n - 1)).flatMap
        (fun i => List.replicate b.transforms.length i)
    current_size := b.current_size + (n - 1) * b.transforms.length
    frames := b.frames ++
      (List.range (n - 1)).flatMap
        (fun i => b.transforms.map (fun t => t (imgD fs sid i))) }

/-- Random access by nonnegative flat index, used to state what a getitem
call returns once the Python index has been resolved. -/
def entryAt (b : Buffer) (j : Nat) :
    Option (((Container × NpVec) × NpVec × (Container × NpVec)) × Tensor) := do
  let observation ← b.observations[j]?
  let action ← b.actions[j]?
  let next_observation ← b.next_observations[j]?
  let _file_id ← b.file_ids[j]?
  let _frame_i ← b.frame_idx[j]?
  let frame ← b.frames[j]?
  pure (((elemKind b.obs_container, observation), action,
         (elemKind b.next_obs_container, next_observation)), frame)

/-- Every entry at or after position pl stores as next observation the
observation vector of the session record at its recorded frame index + 1. -/
def nextOk (data : Record) (pl : Nat) (x : Buffer) : Prop :=
  ∀ j v i2, pl ≤ j → x.next_observations[j]? = some v →
    x.frame_idx[j]? = some i2 → _create_observation data (i2 + 1) = some v

/-- The numeric content of the buffer: the three example sequences, the
provenance sequences, and the example count. -/
def numProj (x : Buffer) :
    List NpVec × List NpVec × List NpVec × List String × List Nat ×
      List Nat × Nat :=
  (x.observations, x.actions, x.next_observations, x.file_ids, x.offsets,
   x.frame_idx, x.current_size)

/-- The ingestion invariant tracked across sessions: fixed configuration,
running count agreeing with the stored length, and the count below
max_size + pipelines (the capacity check runs per frame, before the
per-frame pipeline fan-out). -/
def capInv (M P : Nat) (x : Buffer) : Prop :=
  x.max_size = M ∧ x.transforms.length = P ∧ numAligned x ∧
  x.current_size = x.observations.length ∧ x.current_size ≤ M + P - 1

/-- A buffer with no content and no configuration, used as a default. -/
def emptyBuf : Buffer :=
  { observations := [], actions := [], next_observations := [], offsets := [],
    file_ids := [], frame_idx := [], current_size := 0, frames := [],
    max_size := 0, transforms := [],
    obs_container := Container.pylist, next_obs_container := Container.pylist }

/-- A freshly constructed buffer with the given capacity and pipelines. -/
def freshBuf (ms : Nat) (ts : List Pipeline) : Buffer :=
  { observations := [], actions := [], next_observations := [], offsets := [],
    file_ids := [], frame_idx := [], current_size := 0, frames := [],
    max_size := ms, transforms := ts,
    obs_container := Container.pylist, next_obs_container := Container.pylist }

/-- A concrete identity pipeline for witnesses. -/
def idPipe : Pipeline := fun img => img

/-- A second concrete pipeline for witnesses. -/
def incPipe : Pipeline := fun img => img + 1

/-- A concrete well formed session record of n frames, every field holding
the frame index as value. -/
def mkRecord (n : Nat) : Record :=
  ("frame", (List.range n).map (fun k => (k : Int))) ::
    (obsFields ++ actFields).map
      (fun f => (f, (List.range n).map (fun k => (k : Int))))

/-- A concrete file system providing an image for every frame. -/
def fsAll : ImageFS := fun _sid i => some (100 + i)

/-- A concrete nonempty aligned buffer with two entries, for witnesses. -/
def twoBuf : Buffer :=
  { observations := [⟨DType.float32, [1]⟩, ⟨DType.float32, [2]⟩]
    actions := [⟨DType.float32, [3]⟩, ⟨DType.float32, [4]⟩]
    next_observations := [⟨DType.float32, [5]⟩, ⟨DType.float32, [6]⟩]
    offsets := [0, 0]
    file_ids := ["s", "s"]
    frame_idx := [0, 1]
    current_size := 2
    frames := [70, 71]
    max_size := 10
    transforms := [idPipe]
    obs_container := Container.pylist
    next_obs_container := Container.pylist }

/-- Folding the per-pipeline append body over any pipeline list appends one
copy of the example per pipeline to every sequence and adds the number of
pipelines to the running count; nothing else changes. -/
theorem foldl_appendOne (sid : String) (pl : Nat) (obs act nobs : NpVec)
    (i : Nat) (ts : List Pipeline) (b : Buffer) :
    ts.foldl (fun acc _t => appendOne sid pl obs act nobs i acc) b =
      { b with
        observations := b.observations ++ List.replicate ts.length obs
        actions := b.actions ++ List.replicate ts.length act
        next_observations := b.next_observations ++ List.replicate ts.length nobs
        file_ids := b.file_ids ++ List.replicate ts.length sid
        offsets := b.offsets ++ List.replicate ts.length pl
        frame_idx := b.frame_idx ++ List.replicate ts.length i
        current_size := b.current_size + ts.length } := by
  induction ts generalizing b with
  | nil => simp
  | cons t ts ih =>
    rw [List.foldl_cons, ih]
    simp [appendOne, List.replicate_succ, List.append_assoc]
    omega

/-- The per-frame inner loop appends one copy per configured pipeline. -/
theorem numericExtend_eq (b : Buffer) (sid : String) (pl : Nat)
    (obs act nobs : NpVec) (i : Nat) :
    numericExtend b sid pl obs act nobs i =
      { b with
        observations :=
          b.observations ++ List.replicate b.transforms.length obs
        actions := b.actions ++ List.replicate b.transforms.length act
        next_observations :=
          b.next_observations ++ List.replicate b.transforms.length nobs
        file_ids := b.file_ids ++ List.replicate b.transforms.length sid
        offsets := b.offsets ++ List.replicate b.transforms.length pl
        frame_idx := b.frame_idx ++ List.replicate b.transforms.length i
        current_size := b.current_size + b.transforms.length } :=
  foldl_appendOne sid pl obs act nobs i b.transforms b

/-- The numeric pass never changes the configuration fields, the frame
tensors, or the container tags of the buffer. -/
theorem numericPass_config (data : Record) (sid : String) (pl : Nat) :
    ∀ (l : List Nat) (b b2 : Buffer) (fl : Bool),
      numericPass data sid pl b l = some (b2, fl) →
      b2.max_size = b.max_size ∧ b2.transforms = b.transforms ∧
      b2.frames = b.frames ∧ b2.obs_container = b.obs_container ∧
      b2.next_obs_container = b.next_obs_container := by
  intro l
  induction l with
  | nil =>
    intro b b2 fl h
    simp only [numericPass, Option.some.injEq, Prod.mk.injEq] at h
    rw [← h.1]
    exact ⟨rfl, rfl, rfl, rfl, rfl⟩
  | cons i rest ih =>
    intro b b2 fl h
    by_cases hc : b.max_size ≤ b.current_size
    · simp only [numericPass, if_pos hc, Option.some.injEq, Prod.mk.injEq] at h
      rw [← h.1]
      exact ⟨rfl, rfl, rfl, rfl, rfl⟩
    · simp only [numericPass, if_neg hc] at h
      cases ho : _create_observation data i with
      | none => rw [ho] at h; simp at h
      | some obs =>
        cases ha : _create_action data i with
        | none => rw [ho, ha] at h; simp at h
        | some act =>
          cases hn : _create_observation data (i + 1) with
          | none => rw [ho, ha, hn] at h; simp at h
          | some nobs =>
            rw [ho, ha, hn] at h
            have := ih _ _ _ h
            rw [numericExtend_eq] at this
            simpa using this

/-- The numeric pass keeps the running count below
max_size + number of pipelines (the per-frame capacity check can overshoot
the ceiling by at most the pipeline fan-out of a single frame). -/
theorem numericPass_size (data : Record) (sid : String) (pl : Nat) :
    ∀ (l : List Nat) (b b2 : Buffer) (fl : Bool),
      numericPass data sid pl b l = some (b2, fl) →
      b.current_size ≤ b.max_size + b.transforms.length - 1 →
      b2.current_size ≤ b.max_size + b.transforms.length - 1 := by
  intro l
  induction l with
  | nil =>
    intro b b2 fl h hb
    simp only [numericPass, Option.some.injEq, Prod.mk.injEq] at h
    rw [← h.1]; exact hb
  | cons i rest ih =>
    intro b b2 fl h hb
    by_cases hc : b.max_size ≤ b.current_size
    · simp only [numericPass, if_pos hc, Option.some.injEq, Prod.mk.injEq] at h
      rw [← h.1]; exact hb
    · simp only [numericPass, if_neg hc] at h
      cases ho : _create_observation data i with
      | none => rw [ho] at h; simp at h
      | some obs =>
        cases ha : _create_action data i with
        | none => rw [ho, ha] at h; simp at h
        | some act =>
          cases hn : _create_observation data (i + 1) with
          | none => rw [ho, ha, hn] at h; simp at h
          | some nobs =>
            rw [ho, ha, hn] at h
            have h2 := ih _ _ _ h
            rw [numericExtend_eq] at h2
            simp only at h2
            apply h2
            omega

/-- The numeric pass preserves the equal-length invariant of the six
numeric sequences and the agreement of the running count with the length. -/
theorem numericPass_align (data : Record) (sid : String) (pl : Nat) :
    ∀ (l : List Nat) (b b2 : Buffer) (fl : Bool),
      numericPass data sid pl b l = some (b2, fl) →
      numAligned b → b.current_size = b.observations.length →
      numAligned b2 ∧ b2.current_size = b2.observations.length := by
  intro l
  induction l with
  | nil =>
    intro b b2 fl h ha hs
    simp only [numericPass, Option.some.injEq, Prod.mk.injEq] at h
    rw [← h.1]; exact ⟨ha, hs⟩
  | cons i rest ih =>
    intro b b2 fl h ha hs
    by_cases hc : b.max_size ≤ b.current_size
    · simp only [numericPass, if_pos hc, Option.some.injEq, Prod.mk.injEq] at h
      rw [← h.1]; exact ⟨ha, hs⟩
    · simp only [numericPass, if_neg hc] at h
      cases ho : _create_observation data i with
      | none => rw [ho] at h; simp at h
      | some obs =>
        cases ha2 : _create_action data i with
        | none => rw [ho, ha2] at h; simp at h
        | some act =>
          cases hn : _create_observation data (i + 1) with
          | none => rw [ho, ha2, hn] at h; simp at h
          | some nobs =>
            rw [ho, ha2, hn] at h
            apply ih _ _ _ h
            · rw [numericExtend_eq]
              obtain ⟨g1, g2, g3, g4, g5⟩ := ha
              simp [numAligned, g1, g2, g3, g4, g5]
            · rw [numericExtend_eq]
              simp [hs]

/-- An option known to hold a value equals some of its default read. -/
theorem opt_eq_some_getD {α : Type} (o : Option α) (d : α)
    (h : o.isSome = true) : o = some (o.getD d) := by
  cases o <;> simp_all

/-- Unpacking a field-length check. -/
theorem fieldLen_lookup (data : Record) (f : String) (n : Nat)
    (h : fieldLenB data f n = true) :
    ∃ l, List.lookup f data = some l ∧ l.length = n := by
  unfold fieldLenB at h
  cases hl : List.lookup f data with
  | none => rw [hl] at h; simp at h
  | some l => rw [hl] at h; simp at h; exact ⟨l, rfl, h⟩

/-- A present field of the right length yields a value at every index below
the session length. -/
theorem getField_some (data : Record) (f : String) (n i : Nat)
    (h : fieldLenB data f n = true) (hi : i < n) :
    ∃ v, getField data f i = some v := by
  obtain ⟨l, hl, hn⟩ := fieldLen_lookup data f n h
  have hlt : i < l.length := by omega
  refine ⟨l.get ⟨i, hlt⟩, ?_⟩
  unfold getField
  rw [hl]
  simp [List.getElem?_eq_getElem hlt]

/-- Every canonical field of a well formed record has the right length. -/
theorem wf_field (data : Record) (n : Nat) (f : String)
    (hwf : wellFormedB data n = true) (hf : f ∈ obsFields ++ actFields) :
    fieldLenB data f n = true := by
  unfold wellFormedB at hwf
  rw [Bool.and_eq_true, List.all_eq_true] at hwf
  exact hwf.2 f hf

/-- The frame field of a well formed record has the right length. -/
theorem wf_frame (data : Record) (n : Nat)
    (hwf : wellFormedB data n = true) :
    ∃ l, List.lookup "frame" data = some l ∧ l.length = n := by
  unfold wellFormedB at hwf
  rw [Bool.and_eq_true] at hwf
  exact fieldLen_lookup data "frame" n hwf.1

/-- On a well formed record the observation builder succeeds at every index
below the session length. -/
theorem create_observation_isSome (data : Record) (n i : Nat)
    (hwf : wellFormedB data n = true) (hi : i < n) :
    (_create_observation data i).isSome = true := by
  obtain ⟨v1, e1⟩ := getField_some data "p1_position_x" n i
    (wf_field data n _ hwf (by simp [obsFields, actFields])) hi
  obtain ⟨v2, e2⟩ := getField_some data "p1_position_y" n i
    (wf_field data n _ hwf (by simp [obsFields, actFields])) hi
  obtain ⟨v3, e3⟩ := getField_some data "p1_percent" n i
    (wf_field data n _ hwf (by simp [obsFields, actFields])) hi
  obtain ⟨v4, e4⟩ := getField_some data "p1_facing" n i
    (wf_field data n _ hwf (by simp [obsFields, actFields])) hi
  obtain ⟨v5, e5⟩ := getField_some data "p1_action" n i
    (wf_field data n _ hwf (by simp [obsFields, actFields])) hi
  obtain ⟨v6, e6⟩ := getField_some data "p2_position_x" n i
    (wf_field data n _ hwf (by simp [obsFields, actFields])) hi
  obtain ⟨v7, e7⟩ := getField_some data "p2_position_y" n i
    (wf_field data n _ hwf (by simp [obsFields, actFields])) hi
  obtain ⟨v8, e8⟩ := getField_some data "p2_percent" n i
    (wf_field data n _ hwf (by simp [obsFields, actFields])) hi
  obtain ⟨v9, e9⟩ := getField_some data "p2_facing" n i
    (wf_field data n _ hwf (by simp [obsFields, actFields])) hi
  obtain ⟨v10, e10⟩ := getField_some data "p2_action" n i
    (wf_field data n _ hwf (by simp [obsFields, actFields])) hi
  simp [_create_observation, e1, e2, e3, e4, e5, e6, e7, e8, e9, e10]

/-- On a well formed record the action builder succeeds at every index
below the session length. -/
theorem create_action_isSome (data : Record) (n i : Nat)
    (hwf : wellFormedB data n = true) (hi : i < n) :
    (_create_action data i).isSome = true := by
  obtain ⟨v1, e1⟩ := getField_some data "p1_main_stick_x" n i
    (wf_field data n _ hwf (by simp [obsFields, actFields])) hi
  obtain ⟨v2, e2⟩ := getField_some data "p1_main_stick_y" n i
    (wf_field data n _ hwf (by simp [obsFields, actFields])) hi
  obtain ⟨v3, e3⟩ := getField_some data "p1_c_stick_x" n i
    (wf_field data n _ hwf (by simp [obsFields, actFields])) hi
  obtain ⟨v4, e4⟩ := getField_some data "p1_c_stick_y" n i
    (wf_field data n _ hwf (by simp [obsFields, actFields])) hi
  obtain ⟨v5, e5⟩ := getField_some data "p1_l_shoulder" n i
    (wf_field data n _ hwf (by simp [obsFields, actFields])) hi
  obtain ⟨v6, e6⟩ := getField_some data "p1_r_shoulder" n i
    (wf_field data n _ hwf (by simp [obsFields, actFields])) hi
  obtain ⟨v7, e7⟩ := getField_some data "p1_button_a" n i
    (wf_field data n _ hwf (by simp [obsFields, actFields])) hi
  obtain ⟨v8, e8⟩ := getField_some data "p1_button_b" n i
    (wf_field data n _ hwf (by simp [obsFields, actFields])) hi
  obtain ⟨v9, e9⟩ := getField_some data "p1_button_x" n i
    (wf_field data n _ hwf (by simp [obsFields, actFields])) hi
  obtain ⟨v10, e10⟩ := getField_some data "p1_button_y" n i
    (wf_field data n _ hwf (by simp [obsFields, actFields])) hi
  obtain ⟨v11, e11⟩ := getField_some data "p1_button_z" n i
    (wf_field data n _ hwf (by simp [obsFields, actFields])) hi
  obtain ⟨v12, e12⟩ := getField_some data "p1_button_d_up" n i
    (wf_field data n _ hwf (by simp [obsFields, actFields])) hi
  simp [_create_action, e1, e2, e3, e4, e5, e6, e7, e8, e9, e10, e11, e12]

/-- A numeric pass that never hits the capacity ceiling and whose vector
creations all succeed runs to completion and appends, per frame index in
list order, one example per pipeline to every numeric sequence. -/
theorem numericPass_complete (data : Record) (sid : String) (pl : Nat) :
    ∀ (l : List Nat) (b : Buffer),
      (∀ i ∈ l, (_create_observation data i).isSome = true ∧
        (_create_action data i).isSome = true ∧
        (_create_observation data (i + 1)).isSome = true) →
      1 ≤ b.transforms.length →
      b.current_size + l.length * b.transforms.length ≤ b.max_size →
      numericPass data sid pl b l =
        some ({ b with
          observations := b.observations ++
            l.flatMap
              (fun i => List.replicate b.transforms.length (obsD data i))
          actions := b.actions ++
            l.flatMap
              (fun i => List.replicate b.transforms.length (actD data i))
          next_observations := b.next_observations ++
            l.flatMap
              (fun i => List.replicate b.transforms.length (obsD data (i + 1)))
          file_ids := b.file_ids ++
            l.flatMap (fun _i => List.replicate b.transforms.length sid)
          offsets := b.offsets ++
            l.flatMap (fun _i => List.replicate b.transforms.length pl)
          frame_idx := b.frame_idx ++
            l.flatMap (fun i => List.replicate b.transforms.length i)
          current_size :=
            b.current_size + l.length * b.transforms.length }, true) := by
  intro l
  induction l with
  | nil =>
    intro b hv hP hcap
    simp [numericPass]
  | cons i rest ih =>
    intro b hv hP hcap
    have hpos : 0 < (i :: rest).length * b.transforms.length :=
      Nat.mul_pos (Nat.succ_pos rest.length) hP
    have hc : ¬ b.max_size ≤ b.current_size := by
      have h2 : b.current_size <
          b.current_size + (i :: rest).length * b.transforms.length :=
        Nat.lt_add_of_pos_right hpos
      have h3 := Nat.lt_of_lt_of_le h2 hcap
      omega
    simp only [numericPass, if_neg hc]
    obtain ⟨ho, ha, hn⟩ := hv i (List.mem_cons_self i rest)
    have ho2 : _create_observation data i = some (obsD data i) :=
      opt_eq_some_getD _ _ ho
    have ha2 : _create_action data i = some (actD data i) :=
      opt_eq_some_getD _ _ ha
    have hn2 : _create_observation data (i + 1) = some (obsD data (i + 1)) :=
      opt_eq_some_getD _ _ hn
    rw [ho2, ha2, hn2]
    have hB := numericExtend_eq b sid pl (obsD data i) (actD data i)
      (obsD data (i + 1)) i
    have hcap2 :
        (numericExtend b sid pl (obsD data i) (actD data i)
            (obsD data (i + 1)) i).current_size +
          rest.length *
            (numericExtend b sid pl (obsD data i) (actD data i)
              (obsD data (i + 1)) i).transforms.length ≤
          (numericExtend b sid pl (obsD data i) (actD data i)
            (obsD data (i + 1)) i).max_size := by
      rw [hB]
      simp only [List.length_cons, Nat.succ_mul] at hcap
      simp only []
      have := hcap
      generalize rest.length * b.transforms.length = q at this ⊢
      omega
    have hP2 : 1 ≤ (numericExtend b sid pl (obsD data i) (actD data i)
        (obsD data (i + 1)) i).transforms.length := by
      rw [hB]; simpa using hP
    have hrec := ih _ (fun j hj => hv j (List.mem_cons_of_mem i hj)) hP2 hcap2
    refine hrec.trans ?_
    rw [hB]
    simp only [Option.some.injEq, Prod.mk.injEq]
    refine ⟨?_, trivial⟩
    simp [List.flatMap_cons, List.append_assoc, List.length_cons,
      Nat.succ_mul]
    omega

/-- A constant per-frame fan-out flattens to a replicate. -/
theorem flatMap_const_replicate {α : Type} :
    ∀ (l : List Nat) (p : Nat) (c : α),
      l.flatMap (fun _i => List.replicate p c) =
        List.replicate (l.length * p) c := by
  intro l
  induction l with
  | nil => simp
  | cons i rest ih =>
    intro p c
    rw [List.flatMap_cons, ih, ← List.replicate_add]
    congr 1
    simp only [List.length_cons]
    ring

/-- Length of a fan-out whose per-frame blocks all have the same length. -/
theorem length_flatMap_const {α β : Type} :
    ∀ (l : List α) (f : α → List β) (p : Nat),
      (∀ i ∈ l, (f i).length = p) → (l.flatMap f).length = l.length * p := by
  intro l
  induction l with
  | nil => simp
  | cons i rest ih =>
    intro f p h
    rw [List.flatMap_cons]
    simp only [List.length_append, List.length_cons]
    rw [h i (List.mem_cons_self i rest), ih f p
      (fun j hj => h j (List.mem_cons_of_mem i hj))]
    ring

/-- Collecting the pool results succeeds and keeps input order when every
worker task succeeds. -/
theorem mapOpt_some {α β : Type} (d : β) :
    ∀ (l : List α) (f : α → Option β),
      (∀ i ∈ l, (f i).isSome = true) →
      mapOpt f l = some (l.map (fun i => (f i).getD d)) := by
  intro l
  induction l with
  | nil => intro f _; simp [mapOpt]
  | cons i rest ih =>
    intro f h
    have hi := h i (List.mem_cons_self i rest)
    have h2 : f i = some ((f i).getD d) := opt_eq_some_getD _ d hi
    simp only [mapOpt]
    rw [h2, ih f (fun j hj => h j (List.mem_cons_of_mem i hj))]
    simp

/-- reduce(operator.add, l) on a nonempty list of lists is the flattened
concatenation in list order. -/
theorem reduceAdd_flatten (x : List Tensor) (xs : List (List Tensor)) :
    reduceAdd (x :: xs) = some ((x :: xs).flatten) := by
  suffices h : ∀ (ys : List (List Tensor)) (z : List Tensor),
      ys.foldl (fun a c => a ++ c) z = z ++ ys.flatten by
    simp [reduceAdd, h]
  intro ys
  induction ys with
  | nil => intro z; simp
  | cons c cs ih =>
    intro z
    rw [List.foldl_cons, ih]
    simp

/-- The image fan-out stage: when the stored session ids at the numeric
offsets and the image files all resolve, the pool map returns, in ascending
frame order, the per-frame pipeline fan-outs. -/
theorem image_mapOpt (c : Buffer) (fs : ImageFS) (sid : String) (pl m : Nat)
    (hfid : ∀ i, i < m → c.file_ids[pl + i]? = some sid)
    (himg : ∀ i, i < m → (fs sid i).isSome = true) :
    mapOpt (fun i => load_and_transform_frames c fs pl i) (List.range m) =
      some ((List.range m).map
        (fun i => c.transforms.map (fun t => t (imgD fs sid i)))) := by
  have hload : ∀ i ∈ List.range m,
      load_and_transform_frames c fs pl i =
        some (c.transforms.map (fun t => t (imgD fs sid i))) := by
    intro i hi
    rw [List.mem_range] at hi
    have h2 : fs sid i = some (imgD fs sid i) :=
      opt_eq_some_getD _ 0 (himg i hi)
    simp [load_and_transform_frames, hfid i hi, h2]
  rw [mapOpt_some ([] : List Tensor) _ _
    (fun i hi => by rw [hload i hi]; rfl)]
  congr 1
  apply List.map_congr_left
  intro i hi
  rw [hload i hi]
  rfl

/-- reduce(operator.add, l) flattens any nonempty list of lists. -/
theorem reduceAdd_of_ne_nil (ys : List (List Tensor)) (h : ys ≠ []) :
    reduceAdd ys = some ys.flatten := by
  cases ys with
  | nil => exact absurd rfl h
  | cons x xs => exact reduceAdd_flatten x xs

/-- The image stage succeeds on a nonempty frame range when session ids and
image files resolve, and extends the frame tensors with the in-order
flattened per-frame pipeline fan-outs. -/
theorem imageStage_success (c : Buffer) (fs : ImageFS) (sid : String)
    (pl m : Nat) (hm : 1 ≤ m)
    (hfid : ∀ i, i < m → c.file_ids[pl + i]? = some sid)
    (himg : ∀ i, i < m → (fs sid i).isSome = true) :
    imageStage c fs pl m =
      some { c with
        frames := c.frames ++
          (List.range m).flatMap
            (fun i => c.transforms.map (fun t => t (imgD fs sid i))) } := by
  unfold imageStage
  rw [image_mapOpt c fs sid pl m hfid himg]
  have hne : (List.range m).map
      (fun i => c.transforms.map (fun t => t (imgD fs sid i))) ≠ [] := by
    simp only [ne_eq, List.map_eq_nil_iff, List.range_eq_nil]
    omega
  rw [Option.some_bind, reduceAdd_of_ne_nil _ hne, Option.some_bind]
  simp [List.flatMap_def]

/-- Master characterization: a fully admitted, exception-free ingestion of
one well formed session appends (n - 1) * pipelines numeric examples and the
matching in-order frame tensors. -/
theorem add_pkl_file_success (b : Buffer) (sid : String) (data : Record)
    (fs : ImageFS) (n : Nat)
    (hwf : wellFormedB data n = true) (hn : 2 ≤ n)
    (hP : 1 ≤ b.transforms.length) (halign : numAligned b)
    (hcap : b.current_size + (n - 1) * b.transforms.length ≤ b.max_size)
    (himg : ∀ i, i < n - 1 → (fs sid i).isSome = true) :
    add_pkl_file b sid data fs = some (ingestResult b sid data fs n) := by
  obtain ⟨lf, hlf, hlfn⟩ := wf_frame data n hwf
  have hv : ∀ i ∈ List.range (n - 1),
      (_create_observation data i).isSome = true ∧
      (_create_action data i).isSome = true ∧
      (_create_observation data (i + 1)).isSome = true := by
    intro i hi
    rw [List.mem_range] at hi
    exact ⟨create_observation_isSome data n i hwf (by omega),
      create_action_isSome data n i hwf (by omega),
      create_observation_isSome data n (i + 1) hwf (by omega)⟩
  have hnp := numericPass_complete data sid b.observations.length
    (List.range (n - 1)) b hv hP (by rw [List.length_range]; exact hcap)
  have hfid2 : ∀ i, i < n - 1 →
      (b.file_ids ++ (List.range (n - 1)).flatMap
        (fun _i => List.replicate b.transforms.length sid))[
          b.observations.length + i]? = some sid := by
    intro i hi
    have hlen : b.file_ids.length = b.observations.length := halign.2.2.1
    rw [flatMap_const_replicate, List.length_range,
      List.getElem?_append_right (by omega)]
    have hil : i < (n - 1) * b.transforms.length :=
      Nat.lt_of_lt_of_le hi (Nat.le_mul_of_pos_right _ hP)
    rw [hlen, Nat.add_sub_cancel_left]
    simp [List.getElem?_replicate, hil]
  simp only [add_pkl_file, hlf, hlfn, hnp]
  rw [imageStage_success _ fs sid b.observations.length (n - 1)
    (by omega) hfid2 himg]
  simp [ingestResult, flatMap_const_replicate, List.length_range]

/-- Any successful add_pkl_file call ends in a buffer whose numeric
sequences, count, configuration and container tags are exactly those left
by its numeric pass (the image stage only extends the frame tensors). -/
theorem add_pkl_file_shape (x y : Buffer) (sid : String) (data : Record)
    (fs : ImageFS) (h : add_pkl_file x sid data fs = some y) :
    ∃ b2 fl, numericPass data sid x.observations.length x
        (List.range (((List.lookup "frame" data).getD []).length - 1)) =
          some (b2, fl) ∧
      y.observations = b2.observations ∧ y.actions = b2.actions ∧
      y.next_observations = b2.next_observations ∧
      y.file_ids = b2.file_ids ∧ y.offsets = b2.offsets ∧
      y.frame_idx = b2.frame_idx ∧ y.current_size = b2.current_size ∧
      y.max_size = b2.max_size ∧ y.transforms = b2.transforms ∧
      y.obs_container = b2.obs_container ∧
      y.next_obs_container = b2.next_obs_container := by
  cases hl : List.lookup "frame" data with
  | none => simp [add_pkl_file, hl] at h
  | some lf =>
    simp only [add_pkl_file, hl] at h
    cases hnp : numericPass data sid x.observations.length x
        (List.range (lf.length - 1)) with
    | none => rw [hnp] at h; simp at h
    | some p =>
      obtain ⟨b2, fl⟩ := p
      rw [hnp] at h
      cases fl with
      | false =>
        simp only [Option.some.injEq] at h
        subst h
        exact ⟨b2, false, by simp [hl, hnp], rfl, rfl, rfl, rfl, rfl, rfl,
          rfl, rfl, rfl, rfl, rfl⟩
      | true =>
        simp only [imageStage] at h
        cases hmo : mapOpt
            (fun i => load_and_transform_frames b2 fs x.observations.length i)
            (List.range (lf.length - 1)) with
        | none => rw [hmo] at h; simp at h
        | some results =>
          rw [hmo] at h
          simp only [Option.some_bind] at h
          cases hra : reduceAdd results with
          | none => rw [hra] at h; simp at h
          | some flat =>
            rw [hra] at h
            simp only [Option.some_bind, Option.some.injEq] at h
            subst h
            exact ⟨b2, true, by simp [hl, hnp], rfl, rfl, rfl, rfl, rfl, rfl,
              rfl, rfl, rfl, rfl, rfl⟩

/-- One add_pkl_file call, successful or cut short by capacity, preserves
the ingestion invariant. -/
theorem add_pkl_capInv (M P : Nat) (x y : Buffer) (sid : String)
    (data : Record) (fs : ImageFS) (hinv : capInv M P x)
    (h : add_pkl_file x sid data fs = some y) : capInv M P y := by
  obtain ⟨b2, fl, hnp, ho, ha, hn, hf, hof, hfi, hc, hm, ht, _, _⟩ :=
    add_pkl_file_shape x y sid data fs h
  obtain ⟨hM, hPx, halign, hsz, hcap⟩ := hinv
  have hcfg := numericPass_config data sid _ _ _ _ _ hnp
  have halign2 := numericPass_align data sid _ _ _ _ _ hnp halign hsz
  have hbound := numericPass_size data sid _ _ _ _ _ hnp (by rw [hM, hPx]; exact hcap)
  refine ⟨?_, ?_, ?_, ?_, ?_⟩
  · rw [hm, hcfg.1, hM]
  · rw [ht, hcfg.2.1, hPx]
  · obtain ⟨g1, g2, g3, g4, g5⟩ := halign2.1
    exact ⟨by rw [ha, ho]; exact g1, by rw [hn, ho]; exact g2,
      by rw [hf, ho]; exact g3, by rw [hof, ho]; exact g4,
      by rw [hfi, ho]; exact g5⟩
  · rw [hc, ho]; exact halign2.2
  · rw [hc, ← hM, ← hPx]; exact hbound

/-- The directory ingestion loop preserves the ingestion invariant. -/
theorem ingestAll_capInv (M P : Nat) (fs : ImageFS) :
    ∀ (files : List (String × Record)) (x y : Buffer),
      capInv M P x → ingestAll fs x files = some y → capInv M P y := by
  intro files
  induction files with
  | nil =>
    intro x y hinv h
    simp only [ingestAll, Option.some.injEq] at h
    rw [← h]; exact hinv
  | cons f rest ih =>
    intro x y hinv h
    simp only [ingestAll] at h
    cases hf : add_pkl_file x f.1 f.2 fs with
    | none => rw [hf] at h; simp at h
    | some x2 =>
      rw [hf] at h
      exact ih x2 y (add_pkl_capInv M P x x2 f.1 f.2 fs hinv hf) h

/-- A freshly reset buffer satisfies the ingestion invariant. -/
theorem reset_capInv (b : Buffer) :
    capInv b.max_size b.transforms.length b.reset := by
  simp [capInv, Buffer.reset, numAligned]

/-- C1 (amended): after add_directory on a freshly reset buffer, the example
count is at most max_size + P - 1, where P is the number of configured
pipelines; admission stops at frame granularity once the running count
reaches max_size, but the fan-out of a single admitted frame is not
truncated, so with P = 1 the stated ceiling len(buffer) <= max_size holds,
while with P > 1 the count can overshoot the ceiling by up to P - 1. -/
theorem C1_capacity_bound (b : Buffer) (dir : List (String × Record))
    (fs : ImageFS) (b2 : Buffer) (hP : 1 ≤ b.transforms.length)
    (h : add_directory b.reset dir fs = some b2) :
    bufLen b2 ≤ b.max_size + b.transforms.length - 1 := by
  simp only [add_directory] at h
  cases hia : ingestAll fs b.reset
      (dir.insertionSort fun x y => x.1 ≤ y.1) with
  | none => rw [hia] at h; simp at h
  | some b3 =>
    rw [hia] at h
    simp only [Option.some.injEq] at h
    have hinv := ingestAll_capInv b.max_size b.transforms.length fs _ _ _
      (reset_capInv b) hia
    obtain ⟨hM, hPx, _, hsz, hcap⟩ := hinv
    have : bufLen b2 = b3.observations.length := by
      rw [← h]; rfl
    rw [this, ← hsz]
    exact hcap

/-- C1 counterexample: with two configured pipelines, a capacity ceiling of
one and a single two-frame session, add_directory completes with two
examples in the buffer, exceeding max_size = 1. -/
theorem C1_counterexample :
    (add_directory (freshBuf 1 [idPipe, incPipe]).reset
        [("s", mkRecord 2)] fsAll).map (fun x => bufLen x) = some 2 ∧
      (freshBuf 1 [idPipe, incPipe]).max_size = 1 := by
  constructor
  · decide
  · rfl

/-- Witness for C1: the amended bound evaluated on the counterexample
configuration, where the count reaches exactly max_size + P - 1 = 2. -/
theorem C1_capacity_bound_witness :
    bufLen ((add_directory (freshBuf 1 [idPipe, incPipe]).reset
        [("s", mkRecord 2)] fsAll).getD emptyBuf) ≤
      (freshBuf 1 [idPipe, incPipe]).max_size +
        (freshBuf 1 [idPipe, incPipe]).transforms.length - 1 :=
  C1_capacity_bound (freshBuf 1 [idPipe, incPipe]) [("s", mkRecord 2)] fsAll
    _ (by decide) rfl

/-- C2: demonstration of the code bug behind the alignment claim.  On
Scenario C of the specification (single 5-frame session, one pipeline,
max_size = 2) the capacity return exits add_pkl_file before the image
stage, so the numeric sequences receive two entries while the frame-tensor
sequence receives none: the four parallel sequences do not have identical
length, and getitem on the admitted index 0 raises instead of returning a
training example. -/
theorem C2_truncation_desync :
    (add_directory (freshBuf 2 [idPipe]).reset [("s", mkRecord 5)]
        fsAll).map (fun x => (x.observations.length, x.frames.length)) =
      some (2, 0) ∧
    (add_directory (freshBuf 2 [idPipe]).reset [("s", mkRecord 5)]
        fsAll).map (fun x => getitem x 0) = some none := by
  constructor
  · decide
  · decide

/-- C3: a session ingested without capacity truncation (and without
exceptions) appends to the frame-tensor sequence exactly the flattened
concatenation, in ascending local frame-index order and pipeline order
within a frame, of one tensor per configured pipeline per admitted frame —
the same count as the numeric pass appends. -/
theorem C3_image_order (b : Buffer) (sid : String) (data : Record)
    (fs : ImageFS) (n : Nat) (b2 : Buffer)
    (hwf : wellFormedB data n = true) (hn : 2 ≤ n)
    (hP : 1 ≤ b.transforms.length) (halign : numAligned b)
    (hcap : b.current_size + (n - 1) * b.transforms.length ≤ b.max_size)
    (himg : ∀ i, i < n - 1 → (fs sid i).isSome = true)
    (h : add_pkl_file b sid data fs = some b2) :
    b2.frames = b.frames ++
      (List.range (n - 1)).flatMap
        (fun i => b.transforms.map (fun t => t (imgD fs sid i))) ∧
    b2.frames.length = b.frames.length + (n - 1) * b.transforms.length ∧
    b2.observations.length =
      b.observations.length + (n - 1) * b.transforms.length := by
  rw [add_pkl_file_success b sid data fs n hwf hn hP halign hcap himg] at h
  simp only [Option.some.injEq] at h
  subst h
  refine ⟨by simp [ingestResult], ?_, ?_⟩
  · simp only [ingestResult]
    rw [List.length_append,
      length_flatMap_const _ _ b.transforms.length (fun i _ => by simp),
      List.length_range]
  · simp only [ingestResult]
    rw [List.length_append,
      length_flatMap_const _ _ b.transforms.length (fun i _ => by simp),
      List.length_range]

/-- Witness for C3: the 5-frame single-pipeline session appends the frame
tensors for frames 0..3 in ascending order. -/
theorem C3_image_order_witness :
    ((add_pkl_file (freshBuf 1000 [idPipe]) "s" (mkRecord 5) fsAll).getD
      emptyBuf).frames = [100, 101, 102, 103] := by
  have h := C3_image_order (freshBuf 1000 [idPipe]) "s" (mkRecord 5) fsAll 5
    ((add_pkl_file (freshBuf 1000 [idPipe]) "s" (mkRecord 5) fsAll).getD
      emptyBuf)
    (by decide) (by decide) (by decide) (by decide) (by decide) (by decide)
    rfl
  rw [h.1]
  decide

/-- C4: ingesting a well formed n-frame session with P pipelines and no
capacity truncation produces exactly (n - 1) * P numeric examples — the
final frame is skipped — with provenance frame indices listing every local
index below n - 1, each P times, in ascending order. -/
theorem C4_example_count (b : Buffer) (sid : String) (data : Record)
    (fs : ImageFS) (n : Nat) (b2 : Buffer)
    (hwf : wellFormedB data n = true) (hn : 2 ≤ n)
    (hP : 1 ≤ b.transforms.length) (halign : numAligned b)
    (hcap : b.current_size + (n - 1) * b.transforms.length ≤ b.max_size)
    (himg : ∀ i, i < n - 1 → (fs sid i).isSome = true)
    (h : add_pkl_file b sid data fs = some b2) :
    b2.observations.length =
      b.observations.length + (n - 1) * b.transforms.length ∧
    b2.frame_idx = b.frame_idx ++
      (List.range (n - 1)).flatMap
        (fun i => List.replicate b.transforms.length i) := by
  rw [add_pkl_file_success b sid data fs n hwf hn hP halign hcap himg] at h
  simp only [Option.some.injEq] at h
  subst h
  refine ⟨?_, by simp [ingestResult]⟩
  simp only [ingestResult]
  rw [List.length_append,
    length_flatMap_const _ _ b.transforms.length (fun i _ => by simp),
    List.length_range]

/-- Witness for C4, Scenario A: a single 5-frame session with one pipeline
and max_size = 1000 yields buffer length 4 and provenance frame indices
0, 1, 2, 3. -/
theorem C4_example_count_witness :
    ((add_pkl_file (freshBuf 1000 [idPipe]) "s" (mkRecord 5) fsAll).getD
      emptyBuf).observations.length = 4 ∧
    ((add_pkl_file (freshBuf 1000 [idPipe]) "s" (mkRecord 5) fsAll).getD
      emptyBuf).frame_idx = [0, 1, 2, 3] := by
  have h := C4_example_count (freshBuf 1000 [idPipe]) "s" (mkRecord 5) fsAll 5
    ((add_pkl_file (freshBuf 1000 [idPipe]) "s" (mkRecord 5) fsAll).getD
      emptyBuf)
    (by decide) (by decide) (by decide) (by decide) (by decide) (by decide)
    rfl
  constructor
  · rw [h.1]; decide
  · rw [h.2]; decide

/-- The numeric pass preserves the next-observation provenance property:
every entry it appends stores, as next observation, the observation vector
of the session record at its recorded frame index + 1. -/
theorem numericPass_nextOk (data : Record) (sid : String) (pl p : Nat) :
    ∀ (l : List Nat) (b b2 : Buffer) (fl : Bool),
      numericPass data sid pl b l = some (b2, fl) →
      b.next_observations.length = b.frame_idx.length →
      nextOk data p b →
      nextOk data p b2 ∧
        b2.next_observations.length = b2.frame_idx.length := by
  intro l
  induction l with
  | nil =>
    intro b b2 fl h hlen hok
    simp only [numericPass, Option.some.injEq, Prod.mk.injEq] at h
    rw [← h.1]; exact ⟨hok, hlen⟩
  | cons i rest ih =>
    intro b b2 fl h hlen hok
    by_cases hc : b.max_size ≤ b.current_size
    · simp only [numericPass, if_pos hc, Option.some.injEq, Prod.mk.injEq] at h
      rw [← h.1]; exact ⟨hok, hlen⟩
    · simp only [numericPass, if_neg hc] at h
      cases ho : _create_observation data i with
      | none => rw [ho] at h; simp at h
      | some obs =>
        cases ha : _create_action data i with
        | none => rw [ho, ha] at h; simp at h
        | some act =>
          cases hn : _create_observation data (i + 1) with
          | none => rw [ho, ha, hn] at h; simp at h
          | some nobs =>
            rw [ho, ha, hn] at h
            apply ih _ _ _ h
            · rw [numericExtend_eq]; simp [hlen]
            · intro j v i2 hpj hv hf
              rw [numericExtend_eq] at hv hf
              simp only at hv hf
              by_cases hj : j < b.next_observations.length
              · rw [List.getElem?_append_left hj] at hv
                rw [List.getElem?_append_left (by omega)] at hf
                exact hok j v i2 hpj hv hf
              · rw [List.getElem?_append_right (by omega)] at hv
                rw [List.getElem?_append_right (by omega)] at hf
                rw [List.getElem?_replicate] at hv hf
                by_cases hjP :
                    j - b.next_observations.length < b.transforms.length
                · rw [if_pos hjP] at hv
                  rw [if_pos (by omega)] at hf
                  have hv2 : v = nobs := by
                    have := hv.symm; simpa using this
                  have hf2 : i2 = i := by
                    have := hf.symm; simpa using this
                  rw [hv2, hf2]
                  exact hn
                · rw [if_neg hjP] at hv
                  simp at hv

/-- C5: for every index ingested by an add_pkl_file step (truncated or
not), the stored next-observation at that index is the observation vector
computed from the same session record at the provenance-recorded local
frame index plus one. -/
theorem C5_next_observation (b : Buffer) (sid : String) (data : Record)
    (fs : ImageFS) (b2 : Buffer) (j : Nat)
    (halign : numAligned b)
    (hsz : b.current_size = b.observations.length)
    (h : add_pkl_file b sid data fs = some b2)
    (hj1 : b.observations.length ≤ j) (hj2 : j < b2.observations.length) :
    _create_observation data ((b2.frame_idx[j]?).getD 0 + 1) =
      b2.next_observations[j]? := by
  obtain ⟨c, fl, hnp, ho, ha, hn, hf, hof, hfi, hc, hm, ht, _, _⟩ :=
    add_pkl_file_shape b b2 sid data fs h
  have hok0 : nextOk data b.observations.length b := by
    intro j2 v i2 hpj hv _
    exfalso
    have hge : b.next_observations.length ≤ j2 := by
      rw [halign.2.1]; exact hpj
    rw [List.getElem?_eq_none hge] at hv
    simp at hv
  have hlen0 : b.next_observations.length = b.frame_idx.length := by
    rw [halign.2.1, halign.2.2.2.2]
  have hres := numericPass_nextOk data sid b.observations.length
    b.observations.length _ _ _ _ hnp hlen0 hok0
  have halignc := numericPass_align data sid _ _ _ _ _ hnp halign hsz
  have hj2c : j < c.observations.length := by rw [← ho]; exact hj2
  have hjn : j < c.next_observations.length := by
    rw [halignc.1.2.1]; exact hj2c
  have hjf : j < c.frame_idx.length := by
    rw [halignc.1.2.2.2.2]; exact hj2c
  obtain ⟨v, hv⟩ : ∃ v, c.next_observations[j]? = some v :=
    ⟨_, List.getElem?_eq_getElem hjn⟩
  obtain ⟨i2, hf2⟩ : ∃ i2, c.frame_idx[j]? = some i2 :=
    ⟨_, List.getElem?_eq_getElem hjf⟩
  have rel := hres.1 j v i2 hj1 hv hf2
  rw [hfi, hf2, hn, hv]
  simpa using rel

/-- Witness for C5: at ingested flat index 2 of the 5-frame session, the
stored next observation is the observation of the record at the recorded
frame index plus one. -/
theorem C5_next_observation_witness :
    _create_observation (mkRecord 5)
        ((((add_pkl_file (freshBuf 1000 [idPipe]) "s" (mkRecord 5)
            fsAll).getD emptyBuf).frame_idx[2]?).getD 0 + 1) =
      ((add_pkl_file (freshBuf 1000 [idPipe]) "s" (mkRecord 5)
        fsAll).getD emptyBuf).next_observations[2]? :=
  C5_next_observation (freshBuf 1000 [idPipe]) "s" (mkRecord 5) fsAll
    ((add_pkl_file (freshBuf 1000 [idPipe]) "s" (mkRecord 5) fsAll).getD
      emptyBuf) 2 (by decide) (by decide) rfl (by decide) (by decide)

/-- Python index resolution fails exactly outside the interval from
-length to length - 1. -/
theorem pyIndex_eq_none_iff (n : Nat) (i : Int) :
    pyIndex n i = none ↔ (i < -(n : Int) ∨ (n : Int) ≤ i) := by
  unfold pyIndex
  split_ifs with h1 h2 h3 <;> simp <;> omega

/-- A resolved Python index is in range, equals the raw index when that is
nonnegative, and equals raw index + length when it is negative. -/
theorem pyIndex_some (n : Nat) (i : Int) (j : Nat)
    (h : pyIndex n i = some j) :
    j < n ∧ (0 ≤ i → (j : Int) = i) ∧ (i < 0 → (j : Int) = i + n) := by
  unfold pyIndex at h
  split_ifs at h with h1 h2 h3 <;>
    simp only [Option.some.injEq] at h <;>
    (try subst h) <;>
    refine ⟨by omega, fun _ => by omega, fun _ => by omega⟩

/-- Python indexing reads the resolved position. -/
theorem pyGet_eq {α : Type} (l : List α) (i : Int) (j : Nat)
    (h : pyIndex l.length i = some j) : pyGet l i = l[j]? := by
  unfold pyGet
  rw [h, Option.some_bind]

/-- Python indexing raises when resolution fails. -/
theorem pyGet_none {α : Type} (l : List α) (i : Int)
    (h : pyIndex l.length i = none) : pyGet l i = none := by
  unfold pyGet
  rw [h, Option.none_bind]

/-- On a fully aligned buffer, getitem at a resolvable Python index reads
the entry at the resolved flat position. -/
theorem getitem_eq_entryAt (b : Buffer) (i : Int) (j : Nat)
    (hfull : fullAligned b) (h : pyIndex b.observations.length i = some j) :
    getitem b i = entryAt b j := by
  obtain ⟨⟨g1, g2, g3, g4, g5⟩, g6⟩ := hfull
  unfold getitem entryAt
  rw [pyGet_eq _ _ _ h, pyGet_eq _ _ _ (by rw [g1]; exact h),
    pyGet_eq _ _ _ (by rw [g2]; exact h),
    pyGet_eq _ _ _ (by rw [g3]; exact h),
    pyGet_eq _ _ _ (by rw [g5]; exact h),
    pyGet_eq _ _ _ (by rw [g6]; exact h)]

/-- On a fully aligned buffer, getitem fails exactly outside the interval
from -length to length - 1. -/
theorem getitem_none_iff (b : Buffer) (i : Int) (hfull : fullAligned b) :
    getitem b i = none ↔
      (i < -(bufLen b : Int) ∨ (bufLen b : Int) ≤ i) := by
  constructor
  · intro h
    by_contra hcon
    push_neg at hcon
    obtain ⟨j, hj⟩ : ∃ j, pyIndex (bufLen b) i = some j := by
      cases hpi : pyIndex (bufLen b) i with
      | some j => exact ⟨j, rfl⟩
      | none =>
        rw [pyIndex_eq_none_iff] at hpi
        exfalso
        omega
    rw [getitem_eq_entryAt b i j hfull hj] at h
    have hjlt := (pyIndex_some _ _ _ hj).1
    have hbl : bufLen b = b.observations.length := rfl
    obtain ⟨⟨g1, g2, g3, g4, g5⟩, g6⟩ := hfull
    have e1 := List.getElem?_eq_getElem
      (show j < b.observations.length by omega)
    have e2 := List.getElem?_eq_getElem
      (show j < b.actions.length by omega)
    have e3 := List.getElem?_eq_getElem
      (show j < b.next_observations.length by omega)
    have e4 := List.getElem?_eq_getElem
      (show j < b.file_ids.length by omega)
    have e5 := List.getElem?_eq_getElem
      (show j < b.frame_idx.length by omega)
    have e6 := List.getElem?_eq_getElem
      (show j < b.frames.length by omega)
    simp [entryAt, e1, e2, e3, e4, e5, e6] at h
  · intro h
    have hpi : pyIndex (bufLen b) i = none := (pyIndex_eq_none_iff _ _).2 h
    unfold getitem
    rw [pyGet_none _ _ hpi]
    rfl

/-- C6 (amended): on an aligned buffer, getitem fails with the invalid
index condition exactly when the index is at least len or strictly below
-len; a nonnegative index below len returns the training example at that
flat position, but — contrary to the claim — a negative index at least
-len does not fail: Python wraparound indexing returns the example at
index + len. -/
theorem C6_range_behavior (b : Buffer) (i : Int) (hfull : fullAligned b) :
    (getitem b i = none ↔
      (i < -(bufLen b : Int) ∨ (bufLen b : Int) ≤ i)) ∧
    (0 ≤ i → i < (bufLen b : Int) → getitem b i = entryAt b i.toNat) ∧
    (i < 0 → -(bufLen b : Int) ≤ i →
      getitem b i = entryAt b (i + bufLen b).toNat) := by
  refine ⟨getitem_none_iff b i hfull, ?_, ?_⟩
  · intro h1 h2
    apply getitem_eq_entryAt b i _ hfull
    have h2b : i < ((b.observations.length : Nat) : Int) := h2
    simp [pyIndex, h1, h2b]
  · intro h1 h2
    apply getitem_eq_entryAt b i _ hfull
    have hn : ¬ 0 ≤ i := by omega
    have h2b : -(((b.observations.length : Nat)) : Int) ≤ i := h2
    simp [pyIndex, hn, h2b]
    rfl

/-- C6 counterexample: on an aligned one-session buffer of two entries,
getitem at the negative out-of-[0, len) index -1 silently returns the last
training example instead of failing. -/
theorem C6_counterexample :
    getitem twoBuf (-1) =
      some (((Container.nparray, ⟨DType.float32, [2]⟩),
        ⟨DType.float32, [4]⟩,
        (Container.nparray, ⟨DType.float32, [6]⟩)), 71) := by
  decide

/-- Witness for C6: the wraparound case evaluated at index -2 of the
two-entry buffer. -/
theorem C6_range_behavior_witness :
    getitem twoBuf (-2) =
      entryAt twoBuf ((-2 : Int) + bufLen twoBuf).toNat :=
  (C6_range_behavior twoBuf (-2) (by decide)).2.2 (by decide) (by decide)

/-- C7: on a record providing all ten canonical fields at an in-range frame
index, the observation builder returns the 10-element vector in the fixed
canonical order — p1 position x, p1 position y, p1 percent, p1 facing,
p1 action, then the same five fields for p2 — built as a single-precision
(float32) numpy array. -/
theorem C7_observation_layout (data : Record) (i : Nat)
    (v1 v2 v3 v4 v5 v6 v7 v8 v9 v10 : Val)
    (h1 : getField data "p1_position_x" i = some v1)
    (h2 : getField data "p1_position_y" i = some v2)
    (h3 : getField data "p1_percent" i = some v3)
    (h4 : getField data "p1_facing" i = some v4)
    (h5 : getField data "p1_action" i = some v5)
    (h6 : getField data "p2_position_x" i = some v6)
    (h7 : getField data "p2_position_y" i = some v7)
    (h8 : getField data "p2_percent" i = some v8)
    (h9 : getField data "p2_facing" i = some v9)
    (h10 : getField data "p2_action" i = some v10) :
    _create_observation data i =
      some ⟨DType.float32, [v1, v2, v3, v4, v5, v6, v7, v8, v9, v10]⟩ := by
  simp [_create_observation, h1, h2, h3, h4, h5, h6, h7, h8, h9, h10]

/-- Witness for C7 at frame 1 of a concrete 3-frame record. -/
theorem C7_observation_layout_witness :
    _create_observation (mkRecord 3) 1 =
      some ⟨DType.float32, [1, 1, 1, 1, 1, 1, 1, 1, 1, 1]⟩ :=
  C7_observation_layout (mkRecord 3) 1 1 1 1 1 1 1 1 1 1 1
    (by decide) (by decide) (by decide) (by decide) (by decide) (by decide)
    (by decide) (by decide) (by decide) (by decide)

/-- C8: directory ingestion into a freshly reset buffer is a function of
the configuration (capacity and pipelines), the directory contents and the
image files alone: two reset buffers with equal configuration produce
identical numeric sequences, provenance and example count (the model's
pipelines are pure functions, i.e. non-stochastic). -/
theorem C8_reset_determinism (b1 b2 : Buffer)
    (dir : List (String × Record)) (fs : ImageFS)
    (hm : b1.max_size = b2.max_size) (ht : b1.transforms = b2.transforms) :
    (add_directory b1.reset dir fs).map numProj =
      (add_directory b2.reset dir fs).map numProj ∧
    (add_directory b1.reset dir fs).map bufLen =
      (add_directory b2.reset dir fs).map bufLen := by
  have hres : b1.reset = b2.reset := by
    cases b1
    cases b2
    simp [Buffer.reset] at hm ht ⊢
    exact ⟨hm, ht⟩
  rw [hres]
  exact ⟨rfl, rfl⟩

/-- Witness for C8: a buffer holding stale entries and a fresh buffer with
the same configuration agree after reset ingestion of the same directory. -/
theorem C8_reset_determinism_witness :
    (add_directory twoBuf.reset [("s", mkRecord 3)] fsAll).map numProj =
      (add_directory (freshBuf 10 [idPipe]).reset [("s", mkRecord 3)]
        fsAll).map numProj ∧
    (add_directory twoBuf.reset [("s", mkRecord 3)] fsAll).map bufLen =
      (add_directory (freshBuf 10 [idPipe]).reset [("s", mkRecord 3)]
        fsAll).map bufLen :=
  C8_reset_determinism twoBuf (freshBuf 10 [idPipe]) [("s", mkRecord 3)]
    fsAll rfl rfl

/-- C9: ingesting a session whose record has at most one frame does not
return normally with zero examples: the numeric loop is empty, and the
image stage applies reduce to an empty result list, which raises — even
though the buffer is below capacity and the count formula (n - 1) * P would
predict a silent zero-example ingestion. -/
theorem C9_short_session_raises (b : Buffer) (sid : String) (data : Record)
    (fs : ImageFS) (lf : List Val)
    (hframe : List.lookup "frame" data = some lf) (hlen : lf.length ≤ 1)
    (hcap : b.current_size < b.max_size) :
    add_pkl_file b sid data fs = none := by
  simp only [add_pkl_file, hframe]
  have h0 : lf.length - 1 = 0 := by omega
  rw [h0]
  simp [numericPass, imageStage, mapOpt, reduceAdd, List.range_zero]

/-- Witness for C9: a one-frame session aborts ingestion with an
exception. -/
theorem C9_short_session_raises_witness :
    add_pkl_file (freshBuf 10 [idPipe]) "s" (mkRecord 1) fsAll = none :=
  C9_short_session_raises (freshBuf 10 [idPipe]) "s" (mkRecord 1) fsAll
    ((List.range 1).map (fun k => (k : Int))) rfl (by decide) (by decide)

/-- Any example getitem returns carries the element container kinds of the
two observation sequences. -/
theorem getitem_kind (b : Buffer) (i : Int)
    (e : ((Container × NpVec) × NpVec × (Container × NpVec)) × Tensor)
    (h : getitem b i = some e) :
    e.1.1.1 = elemKind b.obs_container ∧
      e.1.2.2.1 = elemKind b.next_obs_container := by
  unfold getitem at h
  cases h1 : pyGet b.observations i with
  | none => rw [h1] at h; exact Option.noConfusion h
  | some o =>
    rw [h1] at h
    cases h2 : pyGet b.actions i with
    | none => rw [h2] at h; exact Option.noConfusion h
    | some a =>
      rw [h2] at h
      cases h3 : pyGet b.next_observations i with
      | none => rw [h3] at h; exact Option.noConfusion h
      | some n2 =>
        rw [h3] at h
        cases h4 : pyGet b.file_ids i with
        | none => rw [h4] at h; exact Option.noConfusion h
        | some fid =>
          rw [h4] at h
          cases h5 : pyGet b.frame_idx i with
          | none => rw [h5] at h; exact Option.noConfusion h
          | some fi =>
            rw [h5] at h
            cases h6 : pyGet b.frames i with
            | none => rw [h6] at h; exact Option.noConfusion h
            | some fr =>
              rw [h6] at h
              rw [← Option.some.inj h]
              exact ⟨rfl, rfl⟩

/-- C10: after the one-time bulk conversion of add_directory, the
observations sequence is a torch tensor while the next-observations
sequence remains a numpy array, so every successful getitem returns the
observation and next-observation components as different numeric container
types. -/
theorem C10_container_mismatch (b : Buffer) (dir : List (String × Record))
    (fs : ImageFS) (b2 : Buffer) (h : add_directory b dir fs = some b2) :
    b2.obs_container = Container.torch ∧
    b2.next_obs_container = Container.nparray ∧
    ∀ (i : Int) (e : ((Container × NpVec) × NpVec ×
        (Container × NpVec)) × Tensor), getitem b2 i = some e →
      e.1.1.1 = Container.torch ∧ e.1.2.2.1 = Container.nparray ∧
        e.1.1.1 ≠ e.1.2.2.1 := by
  simp only [add_directory] at h
  cases hia : ingestAll fs b (dir.insertionSort fun x y => x.1 ≤ y.1) with
  | none => rw [hia] at h; simp at h
  | some b3 =>
    rw [hia] at h
    simp only [Option.some.injEq] at h
    subst h
    refine ⟨rfl, rfl, ?_⟩
    intro i e he
    have hk := getitem_kind _ i e he
    refine ⟨by rw [hk.1]; rfl, by rw [hk.2]; rfl, ?_⟩
    rw [hk.1, hk.2]
    simp [elemKind]

/-- Witness for C10: the container tags after ingesting one concrete
directory. -/
theorem C10_container_mismatch_witness :
    ((add_directory (freshBuf 5 [idPipe]) [("s", mkRecord 2)] fsAll).getD
      emptyBuf).obs_container = Container.torch ∧
    ((add_directory (freshBuf 5 [idPipe]) [("s", mkRecord 2)] fsAll).getD
      emptyBuf).next_obs_container = Container.nparray :=
  ⟨(C10_container_mismatch (freshBuf 5 [idPipe]) [("s", mkRecord 2)] fsAll
      ((add_directory (freshBuf 5 [idPipe]) [("s", mkRecord 2)] fsAll).getD
        emptyBuf) rfl).1,
   (C10_container_mismatch (freshBuf 5 [idPipe]) [("s", mkRecord 2)] fsAll
      ((add_directory (freshBuf 5 [idPipe]) [("s", mkRecord 2)] fsAll).getD
        emptyBuf) rfl).2.1⟩
